import Mathlib

/-!
# JWKS endpoint (`netlify/functions/keys/main.go`)

A shallow embedding of the serverless handler that publishes a fixed JSON Web
Key Set, together with the properties of its HTTP contract.

* `JWK`, `JWKS`, `getJWKS` and `handler` are translated from `main.go`.
* `events.APIGatewayProxyRequest` / `events.APIGatewayProxyResponse` come from
  `github.com/aws/aws-lambda-go`; only their declarations are needed.  The
  response keeps all four fields, the request those that describe the HTTP
  request.
* `json.Marshal`, `fmt.Errorf` and `log.Printf` belong to the Go standard
  library, which is not part of the repository.  `handler` takes the encoder as
  a parameter, so that its four return statements are all reachable in the
  embedding; `jsonMarshal` and `jsonUnmarshal` model `encoding/json` on the Go
  types that occur here.  Every definition that stands for library code says so
  in its doc comment.
* A Go `map[string]string` literal is a list of key/value pairs in the order
  of the literal; `StringMap.get` is the map lookup.
-/

namespace JWKSEndpoint

/-! ## Data model -/

/-- JWK represents a JSON Web Key structure (`type JWK struct`). -/
structure JWK where
  Kty : String
  Kid : String
  E : String
  N : String
  Use : String
  Alg : String
  deriving DecidableEq, Repr

/-- JWKS represents a JSON Web Key Set (`type JWKS struct`). -/
structure JWKS where
  Keys : List JWK
  deriving DecidableEq, Repr

/-- A Go `map[string]string`, as the list of its entries. -/
abbrev StringMap := List (String × String)

/-- Map lookup `m[k]` with the presence flag. -/
def StringMap.get (m : StringMap) (k : String) : Option String :=
  List.lookup k m

/-- Modelled from the spec: the declaration of `events.APIGatewayProxyRequest`
(package `aws-lambda-go`, not in the repository), the inbound HTTP request
with its method, path, headers, query parameters and body. -/
structure APIGatewayProxyRequest where
  Resource : String
  Path : String
  HTTPMethod : String
  Headers : StringMap
  QueryStringParameters : StringMap
  Body : String
  IsBase64Encoded : Bool
  deriving DecidableEq, Repr

/-- Modelled from the spec: the declaration of `events.APIGatewayProxyResponse`
(package `aws-lambda-go`, not in the repository), the HTTP response with its
status code, headers and body.  A field the handler leaves out of its
composite literal holds Go's zero value. -/
structure APIGatewayProxyResponse where
  StatusCode : Int
  Headers : StringMap := []
  MultiValueHeaders : List (String × List String) := []
  Body : String := ""
  IsBase64Encoded : Bool := false
  deriving DecidableEq, Repr

/-- Modelled from the spec: a Go `error` value, either an error made by a
library (the underlying encoding error), or the value built by `fmt.Errorf`
with a `%w` verb, which keeps the error it wraps. -/
inductive GoError where
  | leaf (msg : String)
  | wrap (msg : String) (inner : GoError)
  deriving DecidableEq, Repr

/-- The `Error()` method. -/
def GoError.Error : GoError → String
  | .leaf msg => msg
  | .wrap msg _ => msg

/-- The `Unwrap()` method, as used by `errors.Unwrap`. -/
def GoError.Unwrap : GoError → Option GoError
  | .leaf _ => none
  | .wrap _ inner => some inner

/-- Modelled from the spec: the call `fmt.Errorf(pre + "%w", err)` of the Go
standard library, for a format whose only verb is a trailing `%w`; the
message is the format with `err.Error()` in place of the verb, and the result
unwraps to `err`. -/
def errorfWrap (pre : String) (err : GoError) : GoError :=
  .wrap (pre ++ err.Error) err

/-- What one invocation of the handler produces: the lines handed to
`log.Printf` (without the logger's timestamp prefix), and the two return
values (`err = none` is Go's `nil`). -/
structure Outcome where
  logs : List String
  response : APIGatewayProxyResponse
  err : Option GoError
  deriving DecidableEq, Repr

/-! ## The key set -/

/-- getJWKS returns the JSON Web Key Set with the two predefined RSA keys. -/
def getJWKS : JWKS :=
  let key1 : JWK :=
    { Kty := "RSA"
      Kid := "Q93ngDAyTNgdjaPblfooyeT00CFLJV5pWulhwAEg8Sw"
      E := "AQAB"
      N := "xTcVMXDqrYepPqPmA7cp2QnEe1tGMvb_Y8PAhVt8iJBEydtzP4_lDWTCvwYD65gzcUr0qpU3-RE1qMz2mwCgIE-ngUeIsOJDoYjf_Snx7P5mqv6ADKI3BTJ88IU_kTFIUR97eun3mxQF4ddZUA6VE39ReJSCSNpsMTyqG9NF5WiLrJNkkhPQ1cdd35Jhku1i4Cg--x7RAFIjmw0E4yGEiKJ0scD7cvQFHTRL6fa2M5DVv_cjcGCOjiCzM0hvTA6jqRB2KZOw2YtpGEo_Vi1-68filWvphbplbFsk4nvpx_NpRiQHjeSgtKVUEBg9OrBa6sqTk0kZUvKDwCIAhl2PTVfbN1WuK8FkSSy4z9DMLNNwaQ3Y73objP6mrx7YGZSH6I5z3jlvLENv9jSrdy-NhiEAHagYQVZ_MtAUecutnO_l4cpNGYs6TOGc4OkI782Mgzwxm4acY2szaVgMeozuqFDvlIp7O00F267Cce693ztQdkvT2R7GXnHON8SqMQaCnuCZis431DoCsSKDkzUdiZdLPmkVjQuYVgfERkIM9X7tYyN5Zr2PizVLsT8NSjJy9hAJPcp3Ufh69kXS385NggFhkdkmU1BD72T4e_0E7OImGO7zH5PHrVmbJCNULCO1fBeVYHDKmywHeA6pO9q5WyrCLnWdC9T9xBMWurbmBeU"
      Use := "sig"
      Alg := "RS256" }
  let key2 : JWK :=
    { Kty := "RSA"
      Kid := "CjZ2bP54fm1lEkeHGo_E4UVyc4MbN4fye1i6DrxFaqQ"
      E := "AQAB"
      N := "nN8D8DxzqoQJsctdkAGmwEU9aL6zsyLjHP_OkPD2yB3swCEiSbKgvxVDIDh-ClGERR1VHL9tFWbyYfWzOZkLCQT4YmvuilSiQ1wu0j_CEH0dqIvXWIyueoz7ZVyjghpkuuW9RVm84C3zvFm6S7d_kLHKYk0SCpP4RbjcHz-1EGA_p4Vl_nTdz16KOuwkNBxH1LJBqq2e3WXczadYvh-EZGrLip1wIUotjebWZaRJWTaw1jn6ssdaRZhZD3JlRUyGO2clK-ULrl-VCSh_FIi_hf4SGTVMhFK1iAnEGxJ5zJ8FaGHxzu25RAaMtwmN1guW02NH1TPOv1eJtXqQoaykfQ"
      Use := "sig"
      Alg := "RS256" }
  { Keys := [key1, key2] }

/-! ## The handler -/

/-- The handler of the JWKS endpoint (`func handler`).  `marshal` stands for
`json.Marshal` applied to a `JWKS`; the unused `ctx` argument is dropped. -/
def handler (marshal : JWKS → Except GoError String)
    (request : APIGatewayProxyRequest) : Outcome :=
  let received := "Received request: " ++ request.HTTPMethod ++ " " ++ request.Path
  -- Handle CORS preflight requests
  if request.HTTPMethod = "OPTIONS" then
    { logs := [received]
      response :=
        { StatusCode := 200
          Headers :=
            [ ("Access-Control-Allow-Origin", "*"),
              ("Access-Control-Allow-Methods", "GET, OPTIONS"),
              ("Access-Control-Allow-Headers", "Content-Type") ] }
      err := none }
  -- Only allow GET requests for the JWKS endpoint
  else if request.HTTPMethod ≠ "GET" then
    { logs := [received]
      response :=
        { StatusCode := 405
          Headers :=
            [ ("Content-Type", "application/json"),
              ("Access-Control-Allow-Origin", "*"),
              ("Access-Control-Allow-Methods", "GET, OPTIONS") ]
          Body := "\x7b\"error\": \"Method not allowed\"\x7d" }
      err := none }
  else
    let jwks := getJWKS
    match marshal jwks with
    | .error err =>
      { logs := [received, "Error marshaling JWKS to JSON: " ++ err.Error]
        response :=
          { StatusCode := 500
            Headers :=
              [ ("Content-Type", "application/json"),
                ("Access-Control-Allow-Origin", "*") ]
            Body := "\x7b\"error\": \"Internal server error\"\x7d" }
        err := some (errorfWrap "failed to marshal JWKS: " err) }
    | .ok jsonData =>
      { logs := [received]
        response :=
          { StatusCode := 200
            Headers :=
              [ ("Content-Type", "application/json"),
                ("Access-Control-Allow-Origin", "*"),
                ("Cache-Control", "public, max-age=3600") ]
            Body := jsonData }
        err := none }

/-! ## `encoding/json`: the encoder

`json.Marshal` walks a Go value by reflection.  `GoValue` lists the kinds of Go
value that matter here; the kinds `encoding/json` refuses (channels, functions,
complex numbers) are kept, so that the encoder has its failure branch. -/

/-- Modelled from the spec: a Go value as the encoder of `encoding/json` (Go
standard library) sees it.  A struct carries its exported fields in
declaration order, each under the name given by its `json` tag. -/
inductive GoValue where
  | string (s : String)
  | bool (b : Bool)
  | nilSlice
  | slice (elems : List GoValue)
  | struct (fields : List (String × GoValue))
  | unsupported (typeName : String)

/-- Lower-case hexadecimal digit of a number below sixteen. -/
def hexDigit (n : Nat) : Char :=
  if n < 10 then Char.ofNat (48 + n) else Char.ofNat (87 + n)

/-- Modelled from the spec: the JSON text of one character of a Go string, as
`appendString` of `encoding/json` (Go 1.22) writes it with HTML escaping on,
the setting of `json.Marshal`. -/
def escapeChar (c : Char) : List Char :=
  if c = '\\' ∨ c = '"' then ['\\', c]
  else if c = '\x08' then ['\\', 'b']
  else if c = '\x0c' then ['\\', 'f']
  else if c = '\n' then ['\\', 'n']
  else if c = '\r' then ['\\', 'r']
  else if c = '\t' then ['\\', 't']
  else if c.toNat < 0x20 ∨ c = '<' ∨ c = '>' ∨ c = '&' then
    ['\\', 'u', '0', '0', hexDigit (c.toNat / 16), hexDigit (c.toNat % 16)]
  else if c = '\u2028' then ['\\', 'u', '2', '0', '2', '8']
  else if c = '\u2029' then ['\\', 'u', '2', '0', '2', '9']
  else [c]

/-- Modelled from the spec: a Go string as a quoted JSON string
(`appendString` of `encoding/json`). -/
def appendString (s : String) : List Char :=
  '"' :: (s.data.flatMap escapeChar ++ ['"'])

/-- Joins the encoded items with commas. -/
def commaJoin : List (List Char) → List Char
  | [] => []
  | [x] => x
  | x :: xs => x ++ ',' :: commaJoin xs

mutual
/-- Modelled from the spec: the JSON text of a Go value as `encoding/json`
writes it, without white space, or its `UnsupportedTypeError`. -/
def marshalValue : GoValue → Except GoError (List Char)
  | .string s => .ok (appendString s)
  | .bool b => .ok (if b then "true".data else "false".data)
  | .nilSlice => .ok "null".data
  | .slice elems =>
    match marshalElems elems with
    | .ok items => .ok ('[' :: (commaJoin items ++ [']']))
    | .error e => .error e
  | .struct fields =>
    match marshalFields fields with
    | .ok items => .ok ('\x7b' :: (commaJoin items ++ ['\x7d']))
    | .error e => .error e
  | .unsupported typeName => .error (.leaf ("json: unsupported type: " ++ typeName))
/-- Modelled from the spec: the elements of a slice, each encoded. -/
def marshalElems : List GoValue → Except GoError (List (List Char))
  | [] => .ok []
  | v :: vs =>
    match marshalValue v with
    | .ok x =>
      match marshalElems vs with
      | .ok xs => .ok (x :: xs)
      | .error e => .error e
    | .error e => .error e
/-- Modelled from the spec: the fields of a struct, each encoded as
`"name":value`. -/
def marshalFields : List (String × GoValue) → Except GoError (List (List Char))
  | [] => .ok []
  | (name, v) :: fs =>
    match marshalValue v with
    | .ok x =>
      match marshalFields fs with
      | .ok xs => .ok ((appendString name ++ ':' :: x) :: xs)
      | .error e => .error e
    | .error e => .error e
end

/-- The Go value of a `JWK` (`type JWK struct`): six string fields under their
`json` tags, in declaration order. -/
def JWK.toGoValue (k : JWK) : GoValue :=
  .struct
    [ ("kty", .string k.Kty), ("kid", .string k.Kid), ("e", .string k.E),
      ("n", .string k.N), ("use", .string k.Use), ("alg", .string k.Alg) ]

/-- The Go value of a `JWKS` (`type JWKS struct`): one field `keys`, a slice of
`JWK`.  A Lean list stands for a non-nil slice, which is what the slice
literal of `getJWKS` builds. -/
def JWKS.toGoValue (s : JWKS) : GoValue :=
  .struct [("keys", .slice (s.Keys.map JWK.toGoValue))]

/-- Modelled from the spec: the call `json.Marshal(jwks)` of the Go standard
library for `jwks` of type `JWKS`, the JSON serialisation of the key set. -/
def jsonMarshal (jwks : JWKS) : Except GoError String :=
  match marshalValue jwks.toGoValue with
  | .ok cs => .ok (String.mk cs)
  | .error e => .error e

/-! ## `encoding/json`: the decoder

`json.Unmarshal` first reads the text as JSON and then stores the value into
the Go variable.  The reader below follows the JSON grammar of RFC 8259; every
recursive call spends one unit of `fuel`, and `parseJSON` starts with more fuel
than the text has characters.  The limit `encoding/json` puts on the nesting
depth is left out. -/

/-- Modelled from the spec: a JSON value as read by `encoding/json`.  A
number keeps its literal text. -/
inductive JsonValue where
  | null
  | bool (b : Bool)
  | number (lit : String)
  | string (s : String)
  | array (elems : List JsonValue)
  | object (members : List (String × JsonValue))

/-- Drops leading JSON white space (space, tab, line feed, carriage return). -/
def skipSpace : List Char → List Char
  | [] => []
  | c :: cs => if c = ' ' ∨ c = '\t' ∨ c = '\n' ∨ c = '\r' then skipSpace cs else c :: cs

/-- Value of a hexadecimal digit. -/
def hexValue (c : Char) : Option Nat :=
  if '0' ≤ c ∧ c ≤ '9' then some (c.toNat - 48)
  else if 'a' ≤ c ∧ c ≤ 'f' then some (c.toNat - 87)
  else if 'A' ≤ c ∧ c ≤ 'F' then some (c.toNat - 55)
  else none

/-- Four hexadecimal digits, as after `\u`. -/
def parseHex4 : List Char → Option (Nat × List Char)
  | a :: b :: c :: d :: rest =>
    match hexValue a, hexValue b, hexValue c, hexValue d with
    | some x, some y, some z, some w => some (((x * 16 + y) * 16 + z) * 16 + w, rest)
    | _, _, _, _ => none
  | _ => none

/-- Modelled from the spec: the characters of a string literal after its
opening quote, up to the closing quote; `acc` holds the decoded characters in reverse.  A `\u` escape
that is half of a surrogate pair without its other half decodes to U+FFFD, as
in `encoding/json`. -/
def parseStringBody : Nat → List Char → List Char → Option (String × List Char)
  | 0, _, _ => none
  | _ + 1, [], _ => none
  | fuel + 1, c :: cs, acc =>
    if c = '"' then some (String.mk acc.reverse, cs)
    else if c = '\\' then
      match cs with
      | [] => none
      | e :: rest =>
        if e = '"' ∨ e = '\\' ∨ e = '/' then parseStringBody fuel rest (e :: acc)
        else if e = 'b' then parseStringBody fuel rest ('\x08' :: acc)
        else if e = 'f' then parseStringBody fuel rest ('\x0c' :: acc)
        else if e = 'n' then parseStringBody fuel rest ('\n' :: acc)
        else if e = 'r' then parseStringBody fuel rest ('\r' :: acc)
        else if e = 't' then parseStringBody fuel rest ('\t' :: acc)
        else if e = 'u' then
          match parseHex4 rest with
          | none => none
          | some (hi, rest1) =>
            if 0xD800 ≤ hi ∧ hi < 0xDC00 then
              match rest1 with
              | '\\' :: 'u' :: rest2 =>
                match parseHex4 rest2 with
                | none => none
                | some (lo, rest3) =>
                  if 0xDC00 ≤ lo ∧ lo < 0xE000 then
                    parseStringBody fuel rest3
                      (Char.ofNat (0x10000 + (hi - 0xD800) * 0x400 + (lo - 0xDC00)) :: acc)
                  else parseStringBody fuel rest1 ('\uFFFD' :: acc)
              | _ => parseStringBody fuel rest1 ('\uFFFD' :: acc)
            else if 0xDC00 ≤ hi ∧ hi < 0xE000 then parseStringBody fuel rest1 ('\uFFFD' :: acc)
            else parseStringBody fuel rest1 (Char.ofNat hi :: acc)
        else none
    else if c.toNat < 0x20 then none
    else parseStringBody fuel cs (c :: acc)

/-- The longest run of decimal digits at the front. -/
def takeDigits : List Char → List Char × List Char
  | [] => ([], [])
  | c :: cs =>
    if '0' ≤ c ∧ c ≤ '9' then ((takeDigits cs).1.cons c, (takeDigits cs).2) else ([], c :: cs)

/-- Modelled from the spec: a number literal, that is optional minus, integer part without a leading zero,
optional fraction, optional exponent. -/
def parseNumber (cs : List Char) : Option (String × List Char) :=
  let (sign, cs1) := match cs with
    | '-' :: r => (['-'], r)
    | _ => ([], cs)
  let (whole, cs2) := takeDigits cs1
  if whole = [] ∨ (whole.head? = some '0' ∧ whole.length ≠ 1) then none
  else
    let frac : Option (List Char × List Char) := match cs2 with
      | '.' :: r =>
        let (ds, r1) := takeDigits r
        if ds = [] then none else some ('.' :: ds, r1)
      | _ => some ([], cs2)
    match frac with
    | none => none
    | some (fs, cs3) =>
      let expo : Option (List Char × List Char) := match cs3 with
        | e :: r =>
          if e = 'e' ∨ e = 'E' then
            let (sg, r1) := match r with
              | s :: r0 => if s = '+' ∨ s = '-' then ([s], r0) else ([], r)
              | [] => ([], r)
            let (ds, r2) := takeDigits r1
            if ds = [] then none else some (e :: (sg ++ ds), r2)
          else some ([], cs3)
        | [] => some ([], cs3)
      match expo with
      | none => none
      | some (es, cs4) => some (String.mk (sign ++ whole ++ fs ++ es), cs4)

/-- Strips the expected characters from the front of the input. -/
def expect : List Char → List Char → Option (List Char)
  | [], cs => some cs
  | _ :: _, [] => none
  | w :: ws, c :: cs => if w = c then expect ws cs else none

mutual
/-- Modelled from the spec: one JSON value at the front of the input, after
optional white space. -/
def parseValue : Nat → List Char → Option (JsonValue × List Char)
  | 0, _ => none
  | fuel + 1, cs =>
    match skipSpace cs with
    | [] => none
    | c :: rest =>
      if c = '\x7b' then
        match skipSpace rest with
        | [] => none
        | d :: rest1 =>
          if d = '\x7d' then some (.object [], rest1)
          else
            match parseMembers fuel (d :: rest1) with
            | some (ms, r) => some (.object ms, r)
            | none => none
      else if c = '[' then
        match skipSpace rest with
        | [] => none
        | d :: rest1 =>
          if d = ']' then some (.array [], rest1)
          else
            match parseElems fuel (d :: rest1) with
            | some (xs, r) => some (.array xs, r)
            | none => none
      else if c = '"' then
        match parseStringBody fuel rest [] with
        | some (s, r) => some (.string s, r)
        | none => none
      else if c = 't' then (expect "rue".data rest).map fun r => (.bool true, r)
      else if c = 'f' then (expect "alse".data rest).map fun r => (.bool false, r)
      else if c = 'n' then (expect "ull".data rest).map fun r => (.null, r)
      else
        match parseNumber (c :: rest) with
        | some (lit, r) => some (.number lit, r)
        | none => none
/-- Modelled from the spec: the elements of a non-empty array, up to and
including the closing bracket. -/
def parseElems : Nat → List Char → Option (List JsonValue × List Char)
  | 0, _ => none
  | fuel + 1, cs =>
    match parseValue fuel cs with
    | none => none
    | some (v, r) =>
      match skipSpace r with
      | [] => none
      | c :: rest =>
        if c = ']' then some ([v], rest)
        else if c = ',' then
          match parseElems fuel rest with
          | some (vs, r1) => some (v :: vs, r1)
          | none => none
        else none
/-- Modelled from the spec: the members of a non-empty object, up to and
including the closing brace. -/
def parseMembers : Nat → List Char → Option (List (String × JsonValue) × List Char)
  | 0, _ => none
  | fuel + 1, cs =>
    match skipSpace cs with
    | [] => none
    | q :: rest =>
      if q = '"' then
        match parseStringBody fuel rest [] with
        | none => none
        | some (key, r) =>
          match skipSpace r with
          | [] => none
          | c :: r1 =>
            if c = ':' then
              match parseValue fuel r1 with
              | none => none
              | some (v, r2) =>
                match skipSpace r2 with
                | [] => none
                | d :: r3 =>
                  if d = '\x7d' then some ([(key, v)], r3)
                  else if d = ',' then
                    match parseMembers fuel r3 with
                    | some (ms, r4) => some ((key, v) :: ms, r4)
                    | none => none
                  else none
            else none
      else none
end

/-- Modelled from the spec: a whole text as one JSON value, with nothing but
white space around it. -/
def parseJSON (data : String) : Option JsonValue :=
  match parseValue (data.data.length + 1) data.data with
  | none => none
  | some (v, rest) => if skipSpace rest = [] then some v else none

/-- Whether two names are equal up to the case of ASCII letters. -/
def foldEq (a b : String) : Bool :=
  a.data.map Char.toLower = b.data.map Char.toLower

/-- Modelled from the spec: the struct field that an object key selects in
`encoding/json`, which is the field whose name is the key, and failing that
the first field whose name differs from it only in case. -/
def findField {α : Type} (fields : List (String × α)) (key : String) : Option α :=
  match fields.find? fun f => f.1 = key with
  | some f => some f.2
  | none => (fields.find? fun f => foldEq f.1 key).map Prod.snd

/-- Modelled from the spec: how `encoding/json` stores a JSON value into a Go
`string`; a JSON string replaces it, `null`
leaves it as it is, anything else is an `UnmarshalTypeError`. -/
def decodeString (cur : String) : JsonValue → Except GoError String
  | .string s => .ok s
  | .null => .ok cur
  | _ => .error (.leaf "json: cannot unmarshal into Go value of type string")

/-- The fields of `JWK`. -/
inductive JWKField where
  | Kty | Kid | E | N | Use | Alg

/-- The `json` tags of `JWK`, in declaration order. -/
def jwkFields : List (String × JWKField) :=
  [("kty", .Kty), ("kid", .Kid), ("e", .E), ("n", .N), ("use", .Use), ("alg", .Alg)]

/-- Modelled from the spec: how `encoding/json` stores one object member into
a `JWK`; a key that names no field is skipped. -/
def decodeJWKMember (cur : JWK) (member : String × JsonValue) : Except GoError JWK :=
  match findField jwkFields member.1 with
  | none => .ok cur
  | some .Kty => (decodeString cur.Kty member.2).map fun s => { cur with Kty := s }
  | some .Kid => (decodeString cur.Kid member.2).map fun s => { cur with Kid := s }
  | some .E => (decodeString cur.E member.2).map fun s => { cur with E := s }
  | some .N => (decodeString cur.N member.2).map fun s => { cur with N := s }
  | some .Use => (decodeString cur.Use member.2).map fun s => { cur with Use := s }
  | some .Alg => (decodeString cur.Alg member.2).map fun s => { cur with Alg := s }

/-- Modelled from the spec: stores the members of an object one after the
other, stopping at the first error. -/
def decodeMembers {α : Type} (step : α → String × JsonValue → Except GoError α) :
    α → List (String × JsonValue) → Except GoError α
  | cur, [] => .ok cur
  | cur, m :: ms =>
    match step cur m with
    | .ok next => decodeMembers step next ms
    | .error e => .error e

/-- Modelled from the spec: how `encoding/json` stores a JSON value into a
`JWK`. -/
def decodeJWK (cur : JWK) : JsonValue → Except GoError JWK
  | .object members => decodeMembers decodeJWKMember cur members
  | .null => .ok cur
  | _ => .error (.leaf "json: cannot unmarshal into Go value of type main.JWK")

/-- The zero value of `JWK`. -/
def JWK.zero : JWK := ⟨"", "", "", "", "", ""⟩

/-- Modelled from the spec: how `encoding/json` stores the elements of a JSON
array into a `[]JWK`; element `i` is stored
into the element the slice already has at `i`, or into a zero `JWK`; the slice
ends up as long as the array. -/
def decodeElems : List JWK → List JsonValue → Except GoError (List JWK)
  | _, [] => .ok []
  | cur, v :: vs =>
    match decodeJWK (cur.headD JWK.zero) v with
    | .ok k =>
      match decodeElems cur.tail vs with
      | .ok ks => .ok (k :: ks)
      | .error e => .error e
    | .error e => .error e

/-- Modelled from the spec: how `encoding/json` stores a JSON value into a
`[]JWK`. -/
def decodeKeys (cur : List JWK) : JsonValue → Except GoError (List JWK)
  | .array elems => decodeElems cur elems
  | .null => .ok []
  | _ => .error (.leaf "json: cannot unmarshal into Go value of type []main.JWK")

/-- Modelled from the spec: how `encoding/json` stores one object member into
a `JWKS`. -/
def decodeJWKSMember (cur : JWKS) (member : String × JsonValue) : Except GoError JWKS :=
  match findField [("keys", ())] member.1 with
  | none => .ok cur
  | some () => (decodeKeys cur.Keys member.2).map fun ks => { cur with Keys := ks }

/-- Modelled from the spec: how `encoding/json` stores a JSON value into a
`JWKS`. -/
def decodeJWKS (cur : JWKS) : JsonValue → Except GoError JWKS
  | .object members => decodeMembers decodeJWKSMember cur members
  | .null => .ok cur
  | _ => .error (.leaf "json: cannot unmarshal into Go value of type main.JWKS")

/-- Modelled from the spec: the call `json.Unmarshal(data, &v)` of the Go
standard library for a fresh `var v JWKS`, that is parsing a body as JSON into
the `JWKS` structure; the result is `v` when the returned error is nil. -/
def jsonUnmarshal (data : String) : Except GoError JWKS :=
  match parseJSON data with
  | none => .error (.leaf "json: syntax error")
  | some v => decodeJWKS { Keys := [] } v

/-! ## Auxiliary definitions for the statements -/

/-- A request with the given method and path, everything else empty. -/
def sampleRequest (method path : String) : APIGatewayProxyRequest :=
  { Resource := "", Path := path, HTTPMethod := method, Headers := [],
    QueryStringParameters := [], Body := "", IsBase64Encoded := false }

/-- An encoder that always fails with the given message. -/
def failingMarshal (msg : String) : JWKS → Except GoError String :=
  fun _ => .error (.leaf msg)

/-- Modelled from the spec: what `lambda.Start(handler)` (package
`aws-lambda-go`) does with a sequence of events, one invocation of the handler
for each, in order; the program has no package-level variable, so nothing is
carried from one invocation to the next. -/
def serve (marshal : JWKS → Except GoError String) :
    List APIGatewayProxyRequest → List Outcome
  | [] => []
  | r :: rs => handler marshal r :: serve marshal rs

/-- The JSON text the encoder gives for one key, written out. -/
def jwkText (k : JWK) : List Char :=
  '\x7b' :: (commaJoin
    [ appendString "kty" ++ ':' :: appendString k.Kty,
      appendString "kid" ++ ':' :: appendString k.Kid,
      appendString "e" ++ ':' :: appendString k.E,
      appendString "n" ++ ':' :: appendString k.N,
      appendString "use" ++ ':' :: appendString k.Use,
      appendString "alg" ++ ':' :: appendString k.Alg ] ++ ['\x7d'])

/-- The text the encoder gives for the key set of `getJWKS` (see
`jsonMarshal_getJWKS`). -/
def jwksDocument : String :=
  "\x7b\"keys\":[\x7b\"kty\":\"RSA\",\"kid\":\"Q93ngDAyTNgdjaPblfooyeT00CFLJV5pWulhwAEg8Sw\",\"e\":\"AQAB\",\"n\":\"xTcVMXDqrYepPqPmA7cp2QnEe1tGMvb_Y8PAhVt8iJBEydtzP4_lDWTCvwYD65gzcUr0qpU3-RE1qMz2mwCgIE-ngUeIsOJDoYjf_Snx7P5mqv6ADKI3BTJ88IU_kTFIUR97eun3mxQF4ddZUA6VE39ReJSCSNpsMTyqG9NF5WiLrJNkkhPQ1cdd35Jhku1i4Cg--x7RAFIjmw0E4yGEiKJ0scD7cvQFHTRL6fa2M5DVv_cjcGCOjiCzM0hvTA6jqRB2KZOw2YtpGEo_Vi1-68filWvphbplbFsk4nvpx_NpRiQHjeSgtKVUEBg9OrBa6sqTk0kZUvKDwCIAhl2PTVfbN1WuK8FkSSy4z9DMLNNwaQ3Y73objP6mrx7YGZSH6I5z3jlvLENv9jSrdy-NhiEAHagYQVZ_MtAUecutnO_l4cpNGYs6TOGc4OkI782Mgzwxm4acY2szaVgMeozuqFDvlIp7O00F267Cce693ztQdkvT2R7GXnHON8SqMQaCnuCZis431DoCsSKDkzUdiZdLPmkVjQuYVgfERkIM9X7tYyN5Zr2PizVLsT8NSjJy9hAJPcp3Ufh69kXS385NggFhkdkmU1BD72T4e_0E7OImGO7zH5PHrVmbJCNULCO1fBeVYHDKmywHeA6pO9q5WyrCLnWdC9T9xBMWurbmBeU\",\"use\":\"sig\",\"alg\":\"RS256\"\x7d,\x7b\"kty\":\"RSA\",\"kid\":\"CjZ2bP54fm1lEkeHGo_E4UVyc4MbN4fye1i6DrxFaqQ\",\"e\":\"AQAB\",\"n\":\"nN8D8DxzqoQJsctdkAGmwEU9aL6zsyLjHP_OkPD2yB3swCEiSbKgvxVDIDh-ClGERR1VHL9tFWbyYfWzOZkLCQT4YmvuilSiQ1wu0j_CEH0dqIvXWIyueoz7ZVyjghpkuuW9RVm84C3zvFm6S7d_kLHKYk0SCpP4RbjcHz-1EGA_p4Vl_nTdz16KOuwkNBxH1LJBqq2e3WXczadYvh-EZGrLip1wIUotjebWZaRJWTaw1jn6ssdaRZhZD3JlRUyGO2clK-ULrl-VCSh_FIi_hf4SGTVMhFK1iAnEGxJ5zJ8FaGHxzu25RAaMtwmN1guW02NH1TPOv1eJtXqQoaykfQ\",\"use\":\"sig\",\"alg\":\"RS256\"\x7d]\x7d"

/-! ### The branches of the handler -/

theorem handler_options_eq (marshal : JWKS → Except GoError String)
    (request : APIGatewayProxyRequest) (h : request.HTTPMethod = "OPTIONS") :
    handler marshal request =
      { logs := ["Received request: " ++ request.HTTPMethod ++ " " ++ request.Path]
        response :=
          { StatusCode := 200
            Headers :=
              [ ("Access-Control-Allow-Origin", "*"),
                ("Access-Control-Allow-Methods", "GET, OPTIONS"),
                ("Access-Control-Allow-Headers", "Content-Type") ] }
        err := none } := by
  simp [handler, h]

theorem handler_other_eq (marshal : JWKS → Except GoError String)
    (request : APIGatewayProxyRequest) (h1 : request.HTTPMethod ≠ "OPTIONS")
    (h2 : request.HTTPMethod ≠ "GET") :
    handler marshal request =
      { logs := ["Received request: " ++ request.HTTPMethod ++ " " ++ request.Path]
        response :=
          { StatusCode := 405
            Headers :=
              [ ("Content-Type", "application/json"),
                ("Access-Control-Allow-Origin", "*"),
                ("Access-Control-Allow-Methods", "GET, OPTIONS") ]
            Body := "\x7b\"error\": \"Method not allowed\"\x7d" }
        err := none } := by
  simp [handler, h1, h2]

theorem handler_get_ok_eq (marshal : JWKS → Except GoError String)
    (request : APIGatewayProxyRequest) (jsonData : String)
    (h : request.HTTPMethod = "GET") (hm : marshal getJWKS = .ok jsonData) :
    handler marshal request =
      { logs := ["Received request: " ++ request.HTTPMethod ++ " " ++ request.Path]
        response :=
          { StatusCode := 200
            Headers :=
              [ ("Content-Type", "application/json"),
                ("Access-Control-Allow-Origin", "*"),
                ("Cache-Control", "public, max-age=3600") ]
            Body := jsonData }
        err := none } := by
  simp [handler, h, hm]

theorem handler_get_error_eq (marshal : JWKS → Except GoError String)
    (request : APIGatewayProxyRequest) (e : GoError)
    (h : request.HTTPMethod = "GET") (hm : marshal getJWKS = .error e) :
    handler marshal request =
      { logs := ["Received request: " ++ request.HTTPMethod ++ " " ++ request.Path,
                 "Error marshaling JWKS to JSON: " ++ e.Error]
        response :=
          { StatusCode := 500
            Headers :=
              [ ("Content-Type", "application/json"),
                ("Access-Control-Allow-Origin", "*") ]
            Body := "\x7b\"error\": \"Internal server error\"\x7d" }
        err := some (errorfWrap "failed to marshal JWKS: " e) } := by
  simp [handler, h, hm]

/-- The four shapes an outcome of the handler can have, by method and by what
the encoder returns. -/
theorem handler_cases (marshal : JWKS → Except GoError String)
    (request : APIGatewayProxyRequest) :
    (request.HTTPMethod = "OPTIONS" ∧
        (handler marshal request).response.StatusCode = 200 ∧
        (handler marshal request).response.Body = "" ∧
        (handler marshal request).response.Headers =
          [ ("Access-Control-Allow-Origin", "*"),
            ("Access-Control-Allow-Methods", "GET, OPTIONS"),
            ("Access-Control-Allow-Headers", "Content-Type") ] ∧
        (handler marshal request).err = none) ∨
      (request.HTTPMethod ≠ "OPTIONS" ∧ request.HTTPMethod ≠ "GET" ∧
        (handler marshal request).response.StatusCode = 405 ∧
        (handler marshal request).response.Headers =
          [ ("Content-Type", "application/json"),
            ("Access-Control-Allow-Origin", "*"),
            ("Access-Control-Allow-Methods", "GET, OPTIONS") ] ∧
        (handler marshal request).err = none) ∨
      (request.HTTPMethod = "GET" ∧ (∃ e, marshal getJWKS = .error e) ∧
        (handler marshal request).response.StatusCode = 500 ∧
        (handler marshal request).response.Headers =
          [ ("Content-Type", "application/json"),
            ("Access-Control-Allow-Origin", "*") ] ∧
        (handler marshal request).err ≠ none) ∨
      (request.HTTPMethod = "GET" ∧ (∃ s, marshal getJWKS = .ok s) ∧
        (handler marshal request).response.StatusCode = 200 ∧
        (handler marshal request).response.Headers =
          [ ("Content-Type", "application/json"),
            ("Access-Control-Allow-Origin", "*"),
            ("Cache-Control", "public, max-age=3600") ] ∧
        (handler marshal request).err = none) := by
  by_cases hopt : request.HTTPMethod = "OPTIONS"
  · left
    rw [handler_options_eq marshal request hopt]
    exact ⟨hopt, rfl, rfl, rfl, rfl⟩
  · by_cases hget : request.HTTPMethod = "GET"
    · cases hm : marshal getJWKS with
      | error e =>
        right; right; left
        rw [handler_get_error_eq marshal request e hget hm]
        exact ⟨hget, ⟨e, rfl⟩, rfl, rfl, by simp⟩
      | ok s =>
        right; right; right
        rw [handler_get_ok_eq marshal request s hget hm]
        exact ⟨hget, ⟨s, rfl⟩, rfl, rfl, rfl⟩
    · right; left
      rw [handler_other_eq marshal request hopt hget]
      exact ⟨hopt, hget, rfl, rfl, rfl⟩

theorem serve_eq_map (marshal : JWKS → Except GoError String)
    (rs : List APIGatewayProxyRequest) : serve marshal rs = rs.map (handler marshal) := by
  induction rs with
  | nil => rfl
  | cons r rs ih => simp [serve, ih]

theorem serve_last (marshal : JWKS → Except GoError String)
    (before : List APIGatewayProxyRequest) (r : APIGatewayProxyRequest) :
    (serve marshal (before ++ [r])).getLast? = some (handler marshal r) := by
  simp [serve_eq_map]

/-! ### The encoder on key sets -/

theorem marshalValue_jwk (k : JWK) : marshalValue k.toGoValue = .ok (jwkText k) := by
  simp [JWK.toGoValue, marshalValue, marshalFields, jwkText]

theorem marshalElems_keys (ks : List JWK) :
    marshalElems (ks.map JWK.toGoValue) = .ok (ks.map jwkText) := by
  induction ks with
  | nil => simp [marshalElems]
  | cons k ks ih => simp [marshalElems, marshalValue_jwk, ih]

theorem jsonMarshal_eq (jwks : JWKS) :
    jsonMarshal jwks =
      .ok (String.mk ('\x7b' :: (appendString "keys" ++
        ':' :: '[' :: (commaJoin (jwks.Keys.map jwkText) ++ [']']) ++ ['\x7d']))) := by
  simp [jsonMarshal, JWKS.toGoValue, marshalValue, marshalFields, marshalElems_keys, commaJoin]

theorem jsonMarshal_ok (jwks : JWKS) : ∃ s, jsonMarshal jwks = .ok s :=
  ⟨_, jsonMarshal_eq jwks⟩

set_option maxRecDepth 100000 in
theorem jsonMarshal_getJWKS : jsonMarshal getJWKS = .ok jwksDocument := rfl

set_option maxRecDepth 100000 in
theorem jsonUnmarshal_jwksDocument : jsonUnmarshal jwksDocument = .ok getJWKS := rfl

/-! ### Checks of the `encoding/json` model -/

theorem marshalValue_unsupported :
    marshalValue (.slice [.string "a", .unsupported "chan int"]) =
      .error (.leaf "json: unsupported type: chan int") := rfl

theorem jsonMarshal_escapes :
    jsonMarshal ⟨[⟨"a\"b\\c\n<\x01é\u2028", "", "", "", "", ""⟩]⟩ =
      .ok ("\x7b\"keys\":[\x7b\"kty\":\"a\\\"b\\\\c\\n\\u003c\\u0001é\\u2028\"," ++
        "\"kid\":\"\",\"e\":\"\",\"n\":\"\",\"use\":\"\",\"alg\":\"\"\x7d]\x7d") := rfl

theorem jsonUnmarshal_escapes :
    jsonUnmarshal ("\x7b\"keys\":[\x7b\"kty\":\"a\\\"b\\\\c\\n\\u003c\\u0001é\\u2028\"," ++
        "\"kid\":\"\",\"e\":\"\",\"n\":\"\",\"use\":\"\",\"alg\":\"\"\x7d]\x7d") =
      .ok ⟨[⟨"a\"b\\c\n<\x01é\u2028", "", "", "", "", ""⟩]⟩ := rfl

theorem jsonUnmarshal_other_layout :
    jsonUnmarshal (" \x7b \"extra\" : [1.5e3, true, null, \x7b\"a\":\x7b\x7d\x7d],\n" ++
        "\"keys\" : [ \x7b\"alg\":\"RS256\", \"Kid\":\"k\\ud83d\\ude00\"\x7d , \x7b\x7d ] \x7d ") =
      .ok ⟨[⟨"", String.mk ['k', Char.ofNat 0x1F600], "", "", "", "RS256"⟩, JWK.zero]⟩ := rfl

theorem jsonUnmarshal_syntax_error :
    jsonUnmarshal "\x7b\"keys\":[\x7b\"kty\":\"RSA\"\x7d" = .error (.leaf "json: syntax error") := rfl

theorem jsonUnmarshal_type_error :
    jsonUnmarshal "\x7b\"keys\":[\x7b\"kty\":1\x7d]\x7d" =
      .error (.leaf "json: cannot unmarshal into Go value of type string") := rfl

/-! ### The contract of the endpoint -/

/-- C1: for every request whose method is exactly `GET`, whatever its path,
headers and body, the handler returns status 200, a nil error, a body equal
to the JSON serialisation of `getJWKS()` (which is the text `jwksDocument`),
and a header map with exactly the entries `Content-Type: application/json`,
`Access-Control-Allow-Origin: *` and `Cache-Control: public, max-age=3600`. -/
theorem handler_get (request : APIGatewayProxyRequest)
    (h : request.HTTPMethod = "GET") :
    ∃ body, jsonMarshal getJWKS = .ok body ∧ body = jwksDocument ∧
      (handler jsonMarshal request).response =
        { StatusCode := 200
          Headers :=
            [ ("Content-Type", "application/json"),
              ("Access-Control-Allow-Origin", "*"),
              ("Cache-Control", "public, max-age=3600") ]
          Body := body } ∧
      (handler jsonMarshal request).err = none := by
  refine ⟨jwksDocument, jsonMarshal_getJWKS, rfl, ?_, ?_⟩ <;>
    rw [handler_get_ok_eq jsonMarshal request jwksDocument h jsonMarshal_getJWKS]

theorem handler_get_witness :
    ∃ body, jsonMarshal getJWKS = .ok body ∧ body = jwksDocument ∧
      (handler jsonMarshal (sampleRequest "GET" "/.netlify/functions/keys")).response =
        { StatusCode := 200
          Headers :=
            [ ("Content-Type", "application/json"),
              ("Access-Control-Allow-Origin", "*"),
              ("Cache-Control", "public, max-age=3600") ]
          Body := body } ∧
      (handler jsonMarshal (sampleRequest "GET" "/.netlify/functions/keys")).err = none :=
  handler_get (sampleRequest "GET" "/.netlify/functions/keys") rfl

/-- C2: for every request whose method is exactly `OPTIONS`, whatever its
path, headers and body (and whatever the encoder does), the handler returns
status 200, an empty body, a nil error, and a header map with exactly the
entries `Access-Control-Allow-Origin: *`, `Access-Control-Allow-Methods: GET,
OPTIONS` and `Access-Control-Allow-Headers: Content-Type`. -/
theorem handler_options (marshal : JWKS → Except GoError String)
    (request : APIGatewayProxyRequest) (h : request.HTTPMethod = "OPTIONS") :
    (handler marshal request).response =
        { StatusCode := 200
          Headers :=
            [ ("Access-Control-Allow-Origin", "*"),
              ("Access-Control-Allow-Methods", "GET, OPTIONS"),
              ("Access-Control-Allow-Headers", "Content-Type") ]
          Body := "" } ∧
      (handler marshal request).err = none := by
  rw [handler_options_eq marshal request h]
  exact ⟨rfl, rfl⟩

theorem handler_options_witness :
    (handler jsonMarshal (sampleRequest "OPTIONS" "/anything/else")).response =
        { StatusCode := 200
          Headers :=
            [ ("Access-Control-Allow-Origin", "*"),
              ("Access-Control-Allow-Methods", "GET, OPTIONS"),
              ("Access-Control-Allow-Headers", "Content-Type") ]
          Body := "" } ∧
      (handler jsonMarshal (sampleRequest "OPTIONS" "/anything/else")).err = none :=
  handler_options jsonMarshal (sampleRequest "OPTIONS" "/anything/else") rfl

/-- C3: for every request whose method is any string other than `GET` and
`OPTIONS`, the handler returns status 405, a nil error, the body
`\x7b"error": "Method not allowed"\x7d`, and a header map with exactly the
entries `Content-Type: application/json`, `Access-Control-Allow-Origin: *` and
`Access-Control-Allow-Methods: GET, OPTIONS`. -/
theorem handler_method_not_allowed (marshal : JWKS → Except GoError String)
    (request : APIGatewayProxyRequest) (hget : request.HTTPMethod ≠ "GET")
    (hopt : request.HTTPMethod ≠ "OPTIONS") :
    (handler marshal request).response =
        { StatusCode := 405
          Headers :=
            [ ("Content-Type", "application/json"),
              ("Access-Control-Allow-Origin", "*"),
              ("Access-Control-Allow-Methods", "GET, OPTIONS") ]
          Body := "\x7b\"error\": \"Method not allowed\"\x7d" } ∧
      (handler marshal request).err = none := by
  rw [handler_other_eq marshal request hopt hget]
  exact ⟨rfl, rfl⟩

theorem handler_method_not_allowed_witness :
    (handler jsonMarshal (sampleRequest "get" "/keys")).response =
        { StatusCode := 405
          Headers :=
            [ ("Content-Type", "application/json"),
              ("Access-Control-Allow-Origin", "*"),
              ("Access-Control-Allow-Methods", "GET, OPTIONS") ]
          Body := "\x7b\"error\": \"Method not allowed\"\x7d" } ∧
      (handler jsonMarshal (sampleRequest "get" "/keys")).err = none :=
  handler_method_not_allowed jsonMarshal (sampleRequest "get" "/keys") (by decide) (by decide)

/-- C4: `getJWKS()` returns exactly two keys, the first with kid
`Q93ngDAyTNgdjaPblfooyeT00CFLJV5pWulhwAEg8Sw` and the second with kid
`CjZ2bP54fm1lEkeHGo_E4UVyc4MbN4fye1i6DrxFaqQ`; every key has kty `RSA`, alg
`RS256`, use `sig` and e `AQAB`; so the set is not empty and keys at different
positions have different kids. -/
theorem getJWKS_keys :
    getJWKS.Keys.length = 2 ∧
      getJWKS.Keys.map JWK.Kid =
        ["Q93ngDAyTNgdjaPblfooyeT00CFLJV5pWulhwAEg8Sw", "CjZ2bP54fm1lEkeHGo_E4UVyc4MbN4fye1i6DrxFaqQ"] ∧
      (∀ k ∈ getJWKS.Keys, k.Kty = "RSA" ∧ k.Alg = "RS256" ∧ k.Use = "sig" ∧ k.E = "AQAB") ∧
      getJWKS.Keys ≠ [] ∧
      (∀ i j : Fin getJWKS.Keys.length, i ≠ j →
        (getJWKS.Keys.get i).Kid ≠ (getJWKS.Keys.get j).Kid) := by
  refine ⟨rfl, rfl, ?_, ?_, ?_⟩
  · intro k hk
    simp only [getJWKS, List.mem_cons, List.mem_singleton, List.not_mem_nil, or_false] at hk
    rcases hk with rfl | rfl <;> exact ⟨rfl, rfl, rfl, rfl⟩
  · simp [getJWKS]
  · intro i j hij
    have hlen : getJWKS.Keys.length = 2 := rfl
    have hi : i.val < 2 := hlen ▸ i.isLt
    have hj : j.val < 2 := hlen ▸ j.isLt
    have hne : i.val ≠ j.val := fun h => hij (Fin.ext h)
    rcases i with ⟨i, hi'⟩
    rcases j with ⟨j, hj'⟩
    simp only at hi hj hne
    interval_cases i <;> interval_cases j <;> first
      | exact absurd rfl hne
      | (simp only [getJWKS, List.get]; decide)

/-- C5: for every request and every behaviour of the encoder, the response
carries the header `Cache-Control` exactly when the method is `GET` and the
status is 200, and its value is then `public, max-age=3600`; a response to
`OPTIONS`, a 405 response and a 500 response carry no `Cache-Control`. -/
theorem cache_control_iff (marshal : JWKS → Except GoError String)
    (request : APIGatewayProxyRequest) :
    ((handler marshal request).response.Headers.get "Cache-Control" =
          some "public, max-age=3600" ↔
        request.HTTPMethod = "GET" ∧ (handler marshal request).response.StatusCode = 200) ∧
      ((handler marshal request).response.Headers.get "Cache-Control" = none ↔
        ¬ (request.HTTPMethod = "GET" ∧
          (handler marshal request).response.StatusCode = 200)) ∧
      (request.HTTPMethod = "OPTIONS" ∨
          (handler marshal request).response.StatusCode = 405 ∨
          (handler marshal request).response.StatusCode = 500 →
        (handler marshal request).response.Headers.get "Cache-Control" = none) := by
  rcases handler_cases marshal request with
    ⟨hm, hs, _, hh, _⟩ | ⟨_, hm, hs, hh, _⟩ | ⟨hm, _, hs, hh, _⟩ | ⟨hm, _, hs, hh, _⟩ <;>
  · rw [hh, hs]
    simp [StringMap.get, List.lookup, hm]

/-- C6: for every request, every method string and every behaviour of the
encoder (the branch where serialisation fails included), the response has the
header `Access-Control-Allow-Origin` with value `*`, and has the header
`Content-Type` with value `application/json` whenever its body is not empty. -/
theorem cors_and_content_type (marshal : JWKS → Except GoError String)
    (request : APIGatewayProxyRequest) :
    (handler marshal request).response.Headers.get "Access-Control-Allow-Origin" = some "*" ∧
      ((handler marshal request).response.Body ≠ "" →
        (handler marshal request).response.Headers.get "Content-Type" =
          some "application/json") := by
  rcases handler_cases marshal request with
    ⟨_, _, hb, hh, _⟩ | ⟨_, _, _, hh, _⟩ | ⟨_, _, _, hh, _⟩ | ⟨_, _, _, hh, _⟩
  · rw [hh, hb]
    simp [StringMap.get, List.lookup]
  all_goals
    rw [hh]
    simp [StringMap.get, List.lookup]

theorem cors_and_content_type_witness :
    (handler (failingMarshal "boom") (sampleRequest "GET" "/keys")).response.Headers.get
        "Access-Control-Allow-Origin" = some "*" ∧
      (handler (failingMarshal "boom") (sampleRequest "GET" "/keys")).response.Headers.get
        "Content-Type" = some "application/json" :=
  ⟨(cors_and_content_type (failingMarshal "boom") (sampleRequest "GET" "/keys")).1,
   (cors_and_content_type (failingMarshal "boom") (sampleRequest "GET" "/keys")).2 (by decide)⟩

/-- C7: round trip.  For a `GET` request, reading the response body as JSON
into a `JWKS` succeeds and gives a value equal to `getJWKS()`: two keys, the
one with kid `Q93ngDAy...` at index 0 and the one with kid `CjZ2bP54...` at
index 1, with all six fields of each key as in the source; and serialising the
value that was read gives the same body again. -/
theorem get_body_round_trip (request : APIGatewayProxyRequest)
    (h : request.HTTPMethod = "GET") :
    ∃ parsed, jsonUnmarshal (handler jsonMarshal request).response.Body = .ok parsed ∧
      parsed = getJWKS ∧
      parsed.Keys.length = 2 ∧
      parsed.Keys.map JWK.Kid =
        ["Q93ngDAyTNgdjaPblfooyeT00CFLJV5pWulhwAEg8Sw", "CjZ2bP54fm1lEkeHGo_E4UVyc4MbN4fye1i6DrxFaqQ"] ∧
      jsonMarshal parsed = .ok (handler jsonMarshal request).response.Body := by
  rw [handler_get_ok_eq jsonMarshal request jwksDocument h jsonMarshal_getJWKS]
  exact ⟨getJWKS, jsonUnmarshal_jwksDocument, rfl, rfl, rfl, jsonMarshal_getJWKS⟩

theorem get_body_round_trip_witness :
    ∃ parsed,
      jsonUnmarshal (handler jsonMarshal (sampleRequest "GET" "/keys")).response.Body =
        .ok parsed ∧
      parsed = getJWKS ∧
      parsed.Keys.length = 2 ∧
      parsed.Keys.map JWK.Kid =
        ["Q93ngDAyTNgdjaPblfooyeT00CFLJV5pWulhwAEg8Sw", "CjZ2bP54fm1lEkeHGo_E4UVyc4MbN4fye1i6DrxFaqQ"] ∧
      jsonMarshal parsed = .ok (handler jsonMarshal (sampleRequest "GET" "/keys")).response.Body :=
  get_body_round_trip (sampleRequest "GET" "/keys") rfl

/-- C8: with the JSON encoder as an operation that may fail: for a `GET`
request, if encoding the key set fails with error `e`, the handler returns
status 500, the body `\x7b"error": "Internal server error"\x7d`, a header map
with exactly the entries `Content-Type: application/json` and
`Access-Control-Allow-Origin: *`, and a non-nil error that wraps `e`; and for
every request the returned error is non-nil exactly when the status is 500. -/
theorem handler_marshal_failure (marshal : JWKS → Except GoError String)
    (request : APIGatewayProxyRequest) :
    (∀ e, request.HTTPMethod = "GET" → marshal getJWKS = .error e →
        (handler marshal request).response =
          { StatusCode := 500
            Headers :=
              [ ("Content-Type", "application/json"),
                ("Access-Control-Allow-Origin", "*") ]
            Body := "\x7b\"error\": \"Internal server error\"\x7d" } ∧
        ∃ w, (handler marshal request).err = some w ∧ w.Unwrap = some e ∧
          w.Error = "failed to marshal JWKS: " ++ e.Error) ∧
      ((handler marshal request).err ≠ none ↔
        (handler marshal request).response.StatusCode = 500) := by
  constructor
  · intro e hget hm
    rw [handler_get_error_eq marshal request e hget hm]
    exact ⟨rfl, _, rfl, rfl, rfl⟩
  · rcases handler_cases marshal request with
      ⟨_, hs, _, _, he⟩ | ⟨_, _, hs, _, he⟩ | ⟨_, _, hs, _, he⟩ | ⟨_, _, hs, _, he⟩
    · simp [hs, he]
    · simp [hs, he]
    · simp [hs, he]
    · simp [hs, he]

theorem handler_marshal_failure_witness :
    (handler (failingMarshal "json: unsupported type: chan int")
          (sampleRequest "GET" "/keys")).response =
        { StatusCode := 500
          Headers :=
            [ ("Content-Type", "application/json"),
              ("Access-Control-Allow-Origin", "*") ]
          Body := "\x7b\"error\": \"Internal server error\"\x7d" } ∧
      ∃ w, (handler (failingMarshal "json: unsupported type: chan int")
          (sampleRequest "GET" "/keys")).err = some w ∧
        w.Unwrap = some (.leaf "json: unsupported type: chan int") ∧
        w.Error = "failed to marshal JWKS: " ++
          (GoError.leaf "json: unsupported type: chan int").Error :=
  (handler_marshal_failure (failingMarshal "json: unsupported type: chan int")
    (sampleRequest "GET" "/keys")).1 (.leaf "json: unsupported type: chan int") rfl rfl

/-- C9: the 500 path is unreachable.  `json.Marshal` fails on no value of type
`JWKS` (a list of records whose fields are all strings), in particular not on
`getJWKS()`; so for every request the handler returns a nil error and a
status that is 200 or 405, never 500. -/
theorem handler_never_fails (request : APIGatewayProxyRequest) :
    (∀ jwks : JWKS, ∃ s, jsonMarshal jwks = .ok s) ∧
      (handler jsonMarshal request).err = none ∧
      ((handler jsonMarshal request).response.StatusCode = 200 ∨
        (handler jsonMarshal request).response.StatusCode = 405) ∧
      (handler jsonMarshal request).response.StatusCode ≠ 500 := by
  refine ⟨jsonMarshal_ok, ?_⟩
  rcases handler_cases jsonMarshal request with
    ⟨_, hs, _, _, he⟩ | ⟨_, _, hs, _, he⟩ | ⟨_, ⟨e, hm⟩, _, _, _⟩ | ⟨_, _, hs, _, he⟩
  · simp [hs, he]
  · simp [hs, he]
  · rw [jsonMarshal_getJWKS] at hm
    cases hm
  · simp [hs, he]

/-- C10: the response depends on the method alone.  Two requests with the
same method, whatever their paths, headers, query parameters and bodies and
whatever requests were served before them, get the same response (status,
header map and body) and the same error; in particular two `GET` requests get
the same body. -/
theorem handler_depends_on_method_only (marshal : JWKS → Except GoError String)
    (r1 r2 : APIGatewayProxyRequest) (h : r1.HTTPMethod = r2.HTTPMethod) :
    (handler marshal r1).response = (handler marshal r2).response ∧
      (handler marshal r1).err = (handler marshal r2).err ∧
      (∀ before1 before2 : List APIGatewayProxyRequest,
        ((serve marshal (before1 ++ [r1])).getLast?.map fun o => (o.response, o.err)) =
          ((serve marshal (before2 ++ [r2])).getLast?.map fun o => (o.response, o.err))) := by
  have key : (handler marshal r1).response = (handler marshal r2).response ∧
      (handler marshal r1).err = (handler marshal r2).err := by
    by_cases hopt : r2.HTTPMethod = "OPTIONS"
    · rw [handler_options_eq marshal r1 (h.trans hopt), handler_options_eq marshal r2 hopt]
      exact ⟨rfl, rfl⟩
    · by_cases hget : r2.HTTPMethod = "GET"
      · cases hm : marshal getJWKS with
        | error e =>
          rw [handler_get_error_eq marshal r1 e (h.trans hget) hm,
            handler_get_error_eq marshal r2 e hget hm]
          exact ⟨rfl, rfl⟩
        | ok s =>
          rw [handler_get_ok_eq marshal r1 s (h.trans hget) hm,
            handler_get_ok_eq marshal r2 s hget hm]
          exact ⟨rfl, rfl⟩
      · rw [handler_other_eq marshal r1 (h ▸ hopt) (h ▸ hget),
          handler_other_eq marshal r2 hopt hget]
        exact ⟨rfl, rfl⟩
  refine ⟨key.1, key.2, ?_⟩
  intro before1 before2
  rw [serve_last, serve_last]
  simp [key.1, key.2]

theorem handler_depends_on_method_only_witness :
    (handler jsonMarshal (sampleRequest "GET" "/keys")).response =
        (handler jsonMarshal
          { Resource := "/x", Path := "/other", HTTPMethod := "GET",
            Headers := [("Origin", "https://example.org")],
            QueryStringParameters := [("kid", "1")], Body := "payload",
            IsBase64Encoded := true }).response ∧
      (handler jsonMarshal (sampleRequest "GET" "/keys")).err =
        (handler jsonMarshal
          { Resource := "/x", Path := "/other", HTTPMethod := "GET",
            Headers := [("Origin", "https://example.org")],
            QueryStringParameters := [("kid", "1")], Body := "payload",
            IsBase64Encoded := true }).err :=
  ⟨(handler_depends_on_method_only jsonMarshal (sampleRequest "GET" "/keys")
      { Resource := "/x", Path := "/other", HTTPMethod := "GET",
        Headers := [("Origin", "https://example.org")],
        QueryStringParameters := [("kid", "1")], Body := "payload",
        IsBase64Encoded := true } rfl).1,
   (handler_depends_on_method_only jsonMarshal (sampleRequest "GET" "/keys")
      { Resource := "/x", Path := "/other", HTTPMethod := "GET",
        Headers := [("Origin", "https://example.org")],
        QueryStringParameters := [("kid", "1")], Body := "payload",
        IsBase64Encoded := true } rfl).2.1⟩

end JWKSEndpoint
